import Mathlib

/-!
Shallow embedding of the watchd backend core (room-scoped match detection,
swipe ledger, room stack builder, feed pagination).

The database tables (schema.sql) are modelled as lists of rows inside a
single `DBState`; each SQL statement issued by the TypeScript code becomes
one primitive function on `DBState`.  The external Catalog Provider
(TMDB) and Availability Cache (JustWatch) are abstracted away: the
discovery endpoint used by `generateRoomStack` becomes a parameter
`provider : Nat → PageFetch`, and the per-movie metadata/offer enrichment
(which never influences which rows are written) is dropped from the
modelled return values.
-/

/-- Swipe direction, the `direction ENUM('left','right')` column. -/
inductive Direction where
  | left
  | right
deriving DecidableEq, Repr

/-- One row of the `swipes` table (unique key on (user, movie, room)). -/
structure Swipe where
  user : Nat
  movie : Nat
  room : Nat
  dir : Direction
  swipedAt : Nat
deriving DecidableEq, Repr

/-- One row of the `matches` table (unique key on (room, movie)). -/
structure MatchRow where
  id : Nat
  room : Nat
  movie : Nat
deriving DecidableEq, Repr

/-- One row of the `room_stack` table. -/
structure StackRow where
  room : Nat
  movie : Nat
  position : Nat
deriving DecidableEq, Repr

/-- One row of the `room_members` table; leaving a room only flips
`is_active`, the row itself stays, so these rows are exactly the users who
have ever belonged to the room. -/
structure Member where
  room : Nat
  user : Nat
  isActive : Bool
deriving DecidableEq, Repr

/-- The database state: one list per table, plus the AUTO_INCREMENT
counter of `matches` and the rooms' `last_activity_at` column. -/
structure DBState where
  members : List Member
  swipes : List Swipe
  matchRows : List MatchRow
  roomStack : List StackRow
  lastActivity : List (Nat × Nat)
  nextMatchId : Nat
deriving DecidableEq, Repr

/-- SELECT user_id FROM room_members WHERE room_id = ? AND user_id = ?
(nonempty result): the membership guard used by every route. -/
def isMember (userId roomId : Nat) (s : DBState) : Bool :=
  s.members.any (fun m => decide (m.room = roomId ∧ m.user = userId))

/-- SELECT user_id FROM room_members WHERE room_id = ? — all rows, active
and inactive alike. -/
def queryRoomMembers (roomId : Nat) (s : DBState) : List Nat :=
  (s.members.filter (fun m => decide (m.room = roomId))).map (fun m => m.user)

/-- SELECT user_id FROM swipes WHERE movie_id = ? AND room_id = ? AND
direction = 'right'. -/
def queryRightSwipes (movieId roomId : Nat) (s : DBState) : List Nat :=
  (s.swipes.filter
    (fun w => decide (w.movie = movieId ∧ w.room = roomId ∧ w.dir = Direction.right))).map
    (fun w => w.user)

/-- SELECT id FROM matches WHERE room_id = ? AND movie_id = ?. -/
def queryMatchIds (roomId movieId : Nat) (s : DBState) : List Nat :=
  (s.matchRows.filter (fun mr => decide (mr.room = roomId ∧ mr.movie = movieId))).map
    (fun mr => mr.id)

/-- Errors surfaced by the storage layer. -/
inductive DBError where
  | uniqueViolation
deriving DecidableEq, Repr

/-- INSERT INTO matches (room_id, movie_id) VALUES (?, ?).  The unique key
`unique_room_movie` rejects a second row for the same (room, movie); on
success the AUTO_INCREMENT id is returned. -/
def insertMatch (roomId movieId : Nat) (s : DBState) : Except DBError (Nat × DBState) :=
  if s.matchRows.any (fun mr => decide (mr.room = roomId ∧ mr.movie = movieId)) then
    .error .uniqueViolation
  else
    .ok (s.nextMatchId,
      { s with
        matchRows := s.matchRows ++ [⟨s.nextMatchId, roomId, movieId⟩]
        nextMatchId := s.nextMatchId + 1 })

/-- Key equality on the `unique_user_movie_room` columns of `swipes`. -/
def swipeKey (u m r : Nat) (w : Swipe) : Bool :=
  decide (w.user = u ∧ w.movie = m ∧ w.room = r)

/-- INSERT INTO swipes ... ON DUPLICATE KEY UPDATE direction =
VALUES(direction), swiped_at = CURRENT_TIMESTAMP: update the existing
(user, movie, room) row if present, else insert a fresh one. -/
def upsertSwipe (u m r : Nat) (d : Direction) (now : Nat) (s : DBState) : DBState :=
  if s.swipes.any (swipeKey u m r) then
    { s with
      swipes := s.swipes.map
        (fun w => if swipeKey u m r w then { w with dir := d, swipedAt := now } else w) }
  else
    { s with swipes := s.swipes ++ [⟨u, m, r, d, now⟩] }

/-- UPDATE rooms SET last_activity_at = NOW() WHERE id = ?. -/
def touchRoom (roomId now : Nat) (s : DBState) : DBState :=
  { s with
    lastActivity := s.lastActivity.map
      (fun p => if p.1 = roomId then (p.1, now) else p) }

/-- DELETE FROM room_stack WHERE room_id = ?. -/
def deleteRoomStack (roomId : Nat) (s : DBState) : DBState :=
  { s with roomStack := s.roomStack.filter (fun row => decide (row.room ≠ roomId)) }

/-- INSERT INTO room_stack (room_id, movie_id, position) VALUES ? — the
bulk insert of (roomId, movieId, index) tuples built by
`movieIds.map((movieId, index) => [roomId, movieId, index])`. -/
def insertRoomStackRows (roomId : Nat) (movieIds : List Nat) (s : DBState) : DBState :=
  { s with
    roomStack := s.roomStack ++ movieIds.enum.map (fun p => ⟨roomId, p.2, p.1⟩) }

/-- The rows of the `room_stack` table belonging to one room. -/
def roomStackRows (roomId : Nat) (s : DBState) : List StackRow :=
  s.roomStack.filter (fun row => decide (row.room = roomId))

/-- Result of `checkAndCreateMatch` (matchmaking.ts).  The TypeScript
result additionally carries title/poster/offers fetched from the external
Catalog Provider and Availability Cache on a best-effort basis; that
enrichment never affects the stored rows and is omitted here. -/
structure MatchResult where
  isMatch : Bool
  matchId : Option Nat := none
  movieId : Option Nat := none
deriving DecidableEq, Repr

set_option linter.unusedVariables false in
/-- checkAndCreateMatch from src/services/matchmaking.ts: count all room
members (active and inactive), count right-swipe rows for (movie, room);
if fewer than two members or fewer right swipes than members, no match;
re-check for an existing (room, movie) match row, then insert.  The
`userId` argument is unused by the queries, exactly as in the source.
The `Except` propagates a storage error (the unique-key violation of the
insert) to the caller, mirroring the absence of any try/catch around the
insert in the source. -/
def checkAndCreateMatch (userId movieId roomId : Nat) (s : DBState) :
    Except DBError (MatchResult × DBState) :=
  let members := queryRoomMembers roomId s
  let memberCount := members.length
  let swipes := queryRightSwipes movieId roomId s
  if memberCount < 2 ∨ swipes.length < memberCount then
    .ok ({ isMatch := false }, s)
  else
    let existing := queryMatchIds roomId movieId s
    if existing.length > 0 then
      .ok ({ isMatch := false }, s)
    else
      match insertMatch roomId movieId s with
      | .error e => .error e
      | .ok (matchId, s') =>
          .ok ({ isMatch := true, matchId := some matchId, movieId := some movieId }, s')

/-- Outcome of the POST /api/swipes handler, as seen by the HTTP client:
403 when not a member, 201 with an optional match payload, or 500 when an
exception reached the handler's catch block. -/
inductive SwipeResponse where
  | forbidden
  | created (matchPayload : Option MatchResult)
  | serverError
deriving DecidableEq, Repr

/-- The POST /api/swipes handler (swipes route): membership check, swipe
upsert, room-activity touch, then match detection on a right swipe.  The
match payload is non-null only when `isMatch` is true.  Any storage error
escaping `checkAndCreateMatch` is caught by the handler's try/catch and
turned into a 500 response (the swipe upsert already happened). -/
def recordSwipe (userId movieId roomId : Nat) (dir : Direction) (now : Nat)
    (s : DBState) : SwipeResponse × DBState :=
  if ¬ isMember userId roomId s then
    (.forbidden, s)
  else
    let s1 := upsertSwipe userId movieId roomId dir now s
    let s2 := touchRoom roomId now s1
    if dir = Direction.right then
      match checkAndCreateMatch userId movieId roomId s2 with
      | .ok (result, s3) =>
          (.created (if result.isMatch then some result else none), s3)
      | .error _ => (.serverError, s2)
    else
      (.created none, s2)

/-- The ids of movies the user has already swiped on in the room:
SELECT movie_id FROM swipes WHERE user_id = ? AND room_id = ?. -/
def userSwipedIds (userId roomId : Nat) (s : DBState) : List Nat :=
  (s.swipes.filter (fun w => decide (w.user = userId ∧ w.room = roomId))).map
    (fun w => w.movie)

/-- SELECT movie_id, position FROM room_stack WHERE room_id = ? ORDER BY
position ASC. -/
def orderedStack (roomId : Nat) (s : DBState) : List StackRow :=
  (s.roomStack.filter (fun row => decide (row.room = roomId))).insertionSort
    (fun a b => a.position ≤ b.position)

/-- The stack rows the user has not swiped on yet, in stack order — the
`unseenMovies` list of the feed handler. -/
def unseenRows (userId roomId : Nat) (s : DBState) : List StackRow :=
  (orderedStack roomId s).filter
    (fun row => ¬ (userSwipedIds userId roomId s).contains row.movie)

/-- Outcome of GET /api/movies/feed, as seen by the client: 403 for a
non-member, otherwise the echoed page number and the movie ids of the
slice (the handler then enriches each id with external metadata and
offers, which cannot change the id list). -/
inductive FeedResponse where
  | forbidden
  | ok (page : Nat) (movieIds : List Nat)
deriving DecidableEq, Repr

/-- The GET /api/movies/feed handler (stack-based revision): clamp the
page to at least 1, check membership, collect the user's swiped ids, read
the room stack ordered by position, drop already-swiped rows, and return
the slice [(page-1)*20, page*20).  An empty slice is answered with the
same shape ({ page, movies: [] }) as a partial one. -/
def getPage (userId roomId pageReq : Nat) (s : DBState) : FeedResponse :=
  let page := max 1 pageReq
  if ¬ isMember userId roomId s then
    .forbidden
  else
    let pageSize := 20
    let startIndex := (page - 1) * pageSize
    let movieSlice := ((unseenRows userId roomId s).drop startIndex).take pageSize
    .ok page (movieSlice.map (fun row => row.movie))

/-- Outcome of GET /api/movies/rooms/:roomId/next-movie: 403 for a
non-member, `stackEmpty` when no unseen stack row exists, else the first
unseen movie id. -/
inductive NextMovieResponse where
  | forbidden
  | movie (movieId : Nat)
  | stackEmpty
deriving DecidableEq, Repr

/-- The GET /api/movies/rooms/:roomId/next-movie handler: the first stack
row (in position order) whose movie the user has not swiped on; when none
exists, the response carries the explicit `stackEmpty: true` marker. -/
def nextMovie (userId roomId : Nat) (s : DBState) : NextMovieResponse :=
  if ¬ isMember userId roomId s then
    .forbidden
  else
    match (orderedStack roomId s).find?
        (fun row => ¬ (userSwipedIds userId roomId s).contains row.movie) with
    | none => .stackEmpty
    | some row => .movie row.movie

/-- One page of the Catalog Provider's discovery endpoint as observed by
`generateRoomStack`: a parsed id list on a 2xx response, `httpError` for a
non-ok response (`response.ok` false), and `networkThrow` when the fetch
call itself rejects (network failure), which in the source surfaces as a
thrown exception. -/
inductive PageFetch where
  | ok (ids : List Nat)
  | httpError
  | networkThrow
deriving DecidableEq, Repr

/-- Errors thrown out of `generateRoomStack`. -/
inductive StackError where
  | notConfigured
  | fetchFailed
deriving DecidableEq, Repr

/-- The page loop of generateRoomStack (`for page = 1..5`): an ok page
appends its ids and continues, a non-ok response breaks out of the loop
keeping the accumulator, and a rejected fetch throws. -/
def fetchPages (provider : Nat → PageFetch) : Nat → Nat → List Nat →
    Except StackError (List Nat)
  | _, 0, acc => .ok acc
  | page, remaining + 1, acc =>
      match provider page with
      | .ok ids => fetchPages provider (page + 1) remaining (acc ++ ids)
      | .httpError => .ok acc
      | .networkThrow => .error .fetchFailed

/-- generateRoomStack from src/services/room-stack.ts: delete the room's
existing stack rows, fail if the TMDB api key is unconfigured, walk the
discovery pages 1..5, and bulk-insert the accumulated (movie_id, index)
tuples unless none were accumulated.  The outer try/catch logs and
rethrows, so every thrown error reaches the caller; the returned state is
the database as the function leaves it in each case.  The translation of
the room's filter document into provider query parameters only shapes the
external request and is absorbed into `provider`. -/
def generateRoomStack (roomId : Nat) (apiKeyConfigured : Bool)
    (provider : Nat → PageFetch) (s : DBState) : Except StackError Unit × DBState :=
  let s1 := deleteRoomStack roomId s
  if ¬ apiKeyConfigured then
    (.error .notConfigured, s1)
  else
    match fetchPages provider 1 5 [] with
    | .error e => (.error e, s1)
    | .ok movieIds =>
        if movieIds = [] then
          (.ok (), s1)
        else
          (.ok (), insertRoomStackRows roomId movieIds s1)

/-- The ids a completed build run persists, as a function of the provider
responses alone: empty when the key is unconfigured or the page loop
throws, otherwise the loop's accumulator. -/
def latestBuildIds (apiKeyConfigured : Bool) (provider : Nat → PageFetch) : List Nat :=
  if ¬ apiKeyConfigured then
    []
  else
    match fetchPages provider 1 5 [] with
    | .error _ => []
    | .ok movieIds => movieIds

/-- The arguments of one in-flight POST /api/swipes request. -/
structure SwipeCall where
  user : Nat
  movie : Nat
  room : Nat
  dir : Direction
  now : Nat
deriving DecidableEq, Repr

/-- The control point of one in-flight swipe request, between two of its
`await pool.query(...)` statements.  Each constructor names the next
database round-trip the request will perform; `checkSwipes` carries the
member count read by the previous query, the only local variable the
remaining code consults. -/
inductive CallPhase where
  | start
  | doUpsert
  | doTouch
  | checkMembers
  | checkSwipes (memberCount : Nat)
  | checkExisting
  | doInsert
  | finished (resp : SwipeResponse)
deriving DecidableEq, Repr

/-- One atomic database round-trip of a swipe request.  The scheduling
model of the source gives no in-process sequencing between requests, but
each individual query or statement against the store is atomic; this
function performs exactly the next such statement of the request and
moves its control point. -/
def stepCall (c : SwipeCall) (p : CallPhase) (s : DBState) : CallPhase × DBState :=
  match p with
  | .start =>
      if isMember c.user c.room s then (.doUpsert, s) else (.finished .forbidden, s)
  | .doUpsert => (.doTouch, upsertSwipe c.user c.movie c.room c.dir c.now s)
  | .doTouch =>
      let s' := touchRoom c.room c.now s
      if c.dir = Direction.right then (.checkMembers, s')
      else (.finished (.created none), s')
  | .checkMembers => (.checkSwipes (queryRoomMembers c.room s).length, s)
  | .checkSwipes memberCount =>
      if memberCount < 2 ∨ (queryRightSwipes c.movie c.room s).length < memberCount then
        (.finished (.created none), s)
      else
        (.checkExisting, s)
  | .checkExisting =>
      if (queryMatchIds c.room c.movie s).length > 0 then
        (.finished (.created none), s)
      else
        (.doInsert, s)
  | .doInsert =>
      match insertMatch c.room c.movie s with
      | .ok (matchId, s') =>
          (.finished (.created (some
            { isMatch := true, matchId := some matchId, movieId := some c.movie })), s')
      | .error _ => (.finished .serverError, s)
  | .finished r => (.finished r, s)

/-- A set of concurrently executing swipe requests with their control
points. -/
abbrev SwipeSystem := List (SwipeCall × CallPhase)

/-- Let request number `i` perform its next database round-trip; an index
out of range or a finished request leaves everything unchanged. -/
def stepSystem (i : Nat) (sys : SwipeSystem) (s : DBState) : SwipeSystem × DBState :=
  match sys.get? i with
  | none => (sys, s)
  | some (c, p) =>
      let (p', s') := stepCall c p s
      (sys.set i (c, p'), s')

/-- Run the system under a schedule: the schedule names, step by step,
which request performs its next database round-trip.  Every interleaving
of the requests' queries is some schedule. -/
def runSystem (sched : List Nat) (sys : SwipeSystem) (s : DBState) : SwipeSystem × DBState :=
  match sched with
  | [] => (sys, s)
  | i :: rest =>
      let (sys', s') := stepSystem i sys s
      runSystem rest sys' s'

/-- Run one request to completion (a request finishes within 8 steps, so
the fuel only serves termination). -/
def runCall (fuel : Nat) (c : SwipeCall) (p : CallPhase) (s : DBState) : CallPhase × DBState :=
  match fuel with
  | 0 => (p, s)
  | fuel' + 1 =>
      match p with
      | .finished r => (.finished r, s)
      | _ =>
          let (p', s') := stepCall c p s
          runCall fuel' c p' s'

/-- Run every request of the system to completion, in order: together
with `runSystem` this produces, for each schedule, one complete
interleaved execution. -/
def finishSystem (sys : SwipeSystem) (s : DBState) : SwipeSystem × DBState :=
  match sys with
  | [] => ([], s)
  | (c, p) :: rest =>
      let (p', s') := runCall 8 c p s
      let (rest', s'') := finishSystem rest s'
      ((c, p') :: rest', s'')

/-- A system in which every call is still at its entry point. -/
def mkSystem (calls : List SwipeCall) : SwipeSystem :=
  calls.map (fun c => (c, CallPhase.start))

/-- The number of match rows for one (room, movie) pair. -/
def countMatches (roomId movieId : Nat) (s : DBState) : Nat :=
  (s.matchRows.filter (fun mr => decide (mr.room = roomId ∧ mr.movie = movieId))).length

/-- The uniqueness invariant backed by the `unique_room_movie` key: no two
match rows share a (room, movie) pair. -/
def matchesKeyUnique (s : DBState) : Prop :=
  s.matchRows.Pairwise (fun a b => ¬ (a.room = b.room ∧ a.movie = b.movie))

/-- The uniqueness invariant backed by the `unique_user_movie_room` key:
no two swipe rows share a (user, movie, room) triple. -/
def swipesKeyUnique (s : DBState) : Prop :=
  s.swipes.Pairwise (fun a b => ¬ (a.user = b.user ∧ a.movie = b.movie ∧ a.room = b.room))

/-- The database of the canonical race scenario from the spec's property
test: one room (id 1) whose two members (users 10 and 20) are about to
right-swipe the same movie (id 550), no swipes or matches yet. -/
def raceState : DBState :=
  { members := [⟨1, 10, true⟩, ⟨1, 20, true⟩]
    swipes := []
    matchRows := []
    roomStack := []
    lastActivity := [(1, 0)]
    nextMatchId := 1 }

/-- Member 10's concurrent right-swipe on movie 550 in room 1. -/
def callA : SwipeCall := ⟨10, 550, 1, Direction.right, 5⟩

/-- Member 20's concurrent right-swipe on movie 550 in room 1. -/
def callB : SwipeCall := ⟨20, 550, 1, Direction.right, 6⟩

/-- Run the two concurrent right-swipes of the race scenario under a
schedule. -/
def raceRun (sched : List Nat) : SwipeSystem × DBState :=
  runSystem sched (mkSystem [callA, callB]) raceState

/-- One complete execution of the race scenario is acceptable when both
requests have finished and exactly one match row for (room 1, movie 550)
exists. -/
def raceOK (sched : List Nat) : Bool :=
  countMatches 1 550 (raceRun sched).2 == 1
    && ((raceRun sched).1.all (fun p =>
        match p.2 with
        | CallPhase.finished _ => true
        | _ => false))

/-- Check `raceOK` on every extension of `sched` by a merge of `a`
further steps of request 0 and `b` further steps of request 1; the first
argument is structural fuel so the recursion reduces definitionally. -/
def allMergesOK : Nat → Nat → Nat → List Nat → Bool
  | 0, _, _, _ => true
  | _ + 1, 0, b, sched => raceOK (sched ++ List.replicate b 1)
  | _ + 1, a + 1, 0, sched => raceOK (sched ++ List.replicate (a + 1) 0)
  | f + 1, a + 1, b + 1, sched =>
      allMergesOK f a (b + 1) (sched ++ [0]) && allMergesOK f (a + 1) b (sched ++ [1])

/-- The condition under which `checkAndCreateMatch` reaches its insert:
at least two members ever in the room, at least as many right-swipe rows
on (movie, room) as members, and no existing (room, movie) match row. -/
def matchEligible (movieId roomId : Nat) (s : DBState) : Prop :=
  2 ≤ (queryRoomMembers roomId s).length ∧
  (queryRoomMembers roomId s).length ≤ (queryRightSwipes movieId roomId s).length ∧
  queryMatchIds roomId movieId s = []

/-- Modelled from the spec: the feed slice as §4.2 words it — "filter out
already-decided identifiers preserving relative order; slice
[(page-1)*20, page*20)" — stated over plain id lists, to be compared with
the route handler `getPage`. -/
def feedPageSpec (stackIds swipedIds : List Nat) (page : Nat) : List Nat :=
  (((stackIds.filter (fun movieId => ¬ swipedIds.contains movieId)).drop
    ((page - 1) * 20)).take 20)

/-- The ids accumulated from `count` consecutive ok provider pages
starting at `page`, each page `j` contributing the list `f j`. -/
def gatherPages (f : Nat → List Nat) : Nat → Nat → List Nat
  | _, 0 => []
  | page, count + 1 => f page ++ gatherPages f (page + 1) count

/-- A room-1 database in which both members right-swiped movie 550 and
the (room 1, movie 550) match row already exists. -/
def c2State : DBState :=
  { members := [⟨1, 10, true⟩, ⟨1, 20, true⟩]
    swipes := [⟨10, 550, 1, Direction.right, 1⟩, ⟨20, 550, 1, Direction.right, 2⟩]
    matchRows := [⟨1, 1, 550⟩]
    roomStack := []
    lastActivity := [(1, 0)]
    nextMatchId := 2 }

/-- A database in which user 10, the single member of room 1, has swiped
on the only stack movie: the user's unseen candidates are exhausted. -/
def c6ExhaustedState : DBState :=
  { members := [⟨1, 10, true⟩]
    swipes := [⟨10, 550, 1, Direction.left, 1⟩]
    matchRows := []
    roomStack := [⟨1, 550, 0⟩]
    lastActivity := [(1, 0)]
    nextMatchId := 1 }

/-- A database in which user 10, a member of room 1, still has one unseen
stack movie, but too few for feed page 2 to be nonempty. -/
def c6SparseState : DBState :=
  { members := [⟨1, 10, true⟩]
    swipes := []
    matchRows := []
    roomStack := [⟨1, 600, 0⟩]
    lastActivity := [(1, 0)]
    nextMatchId := 1 }

/-- A database whose room 1 (member: user 10) has a three-movie stack of
which the user has already swiped the middle one. -/
def feedState : DBState :=
  { members := [⟨1, 10, true⟩]
    swipes := [⟨10, 8, 1, Direction.left, 1⟩]
    matchRows := []
    roomStack := [⟨1, 7, 0⟩, ⟨1, 8, 1⟩, ⟨1, 9, 2⟩]
    lastActivity := [(1, 0)]
    nextMatchId := 1 }

/-- A provider whose first discovery page repeats a movie id and whose
later pages fail with a non-ok status. -/
def dupPagesProvider : Nat → PageFetch :=
  fun page => if page = 1 then .ok [550, 550] else .httpError

/-- A provider whose every fetch rejects (network failure). -/
def throwProvider : Nat → PageFetch :=
  fun _ => .networkThrow

/-- A provider that answers every discovery page with a singleton page. -/
def okProvider : Nat → PageFetch :=
  fun page => .ok [page]

/-- A provider whose page 1 succeeds and whose page 2 answers non-ok. -/
def stopAtTwoProvider : Nat → PageFetch :=
  fun page => if page = 1 then .ok [7, 8] else .httpError

/-- A sequence of swipe submissions by one user on one (movie, room),
each a full pass through the POST /api/swipes handler. -/
def applySwipes (userId movieId roomId : Nat) (seq : List (Direction × Nat))
    (s : DBState) : DBState :=
  seq.foldl (fun st q => (recordSwipe userId movieId roomId q.1 q.2 st).2) s

theorem upsertSwipe_members (u m r : Nat) (d : Direction) (now : Nat) (s : DBState) :
    (upsertSwipe u m r d now s).members = s.members := by
  unfold upsertSwipe; split <;> rfl

theorem upsertSwipe_matchRows (u m r : Nat) (d : Direction) (now : Nat) (s : DBState) :
    (upsertSwipe u m r d now s).matchRows = s.matchRows := by
  unfold upsertSwipe; split <;> rfl

theorem upsertSwipe_nextMatchId (u m r : Nat) (d : Direction) (now : Nat) (s : DBState) :
    (upsertSwipe u m r d now s).nextMatchId = s.nextMatchId := by
  unfold upsertSwipe; split <;> rfl

theorem touchRoom_members (roomId now : Nat) (s : DBState) :
    (touchRoom roomId now s).members = s.members := rfl

theorem touchRoom_matchRows (roomId now : Nat) (s : DBState) :
    (touchRoom roomId now s).matchRows = s.matchRows := rfl

theorem touchRoom_swipes (roomId now : Nat) (s : DBState) :
    (touchRoom roomId now s).swipes = s.swipes := rfl

theorem insertMatch_ok_components (roomId movieId : Nat) (s : DBState) (matchId : Nat)
    (s' : DBState) (h : insertMatch roomId movieId s = .ok (matchId, s')) :
    s'.members = s.members ∧ s'.swipes = s.swipes ∧
      s'.matchRows = s.matchRows ++ [⟨s.nextMatchId, roomId, movieId⟩] ∧
      matchId = s.nextMatchId := by
  unfold insertMatch at h
  split at h
  · exact absurd h (by simp)
  · injection h with h'
    injection h' with h1 h2
    subst h1; subst h2
    exact ⟨rfl, rfl, rfl, rfl⟩

theorem insertMatch_guard (roomId movieId : Nat) (s : DBState) (matchId : Nat)
    (s' : DBState) (h : insertMatch roomId movieId s = .ok (matchId, s')) :
    ∀ mr ∈ s.matchRows, ¬ (mr.room = roomId ∧ mr.movie = movieId) := by
  unfold insertMatch at h
  split at h
  · exact absurd h (by simp)
  · rename_i hguard
    intro mr hmr
    have := List.any_eq_true.not.mp hguard
    push_neg at this
    have h2 := this mr hmr
    simpa using h2

theorem matchesKeyUnique_insertMatch (roomId movieId : Nat) (s : DBState) (matchId : Nat)
    (s' : DBState) (hok : insertMatch roomId movieId s = .ok (matchId, s'))
    (h : matchesKeyUnique s) : matchesKeyUnique s' := by
  obtain ⟨-, -, hm, -⟩ := insertMatch_ok_components roomId movieId s matchId s' hok
  have hguard := insertMatch_guard roomId movieId s matchId s' hok
  unfold matchesKeyUnique at h ⊢
  rw [hm, List.pairwise_append]
  refine ⟨h, by simp, ?_⟩
  intro a ha b hb
  simp only [List.mem_singleton] at hb
  subst hb
  intro ⟨h1, h2⟩
  exact hguard a ha ⟨h1, h2⟩

theorem stepCall_matchesKeyUnique (c : SwipeCall) (p : CallPhase) (s : DBState)
    (h : matchesKeyUnique s) : matchesKeyUnique (stepCall c p s).2 := by
  cases p with
  | start =>
      simp only [stepCall]
      split <;> exact h
  | doUpsert =>
      simp only [stepCall]
      unfold matchesKeyUnique at h ⊢
      rw [upsertSwipe_matchRows]
      exact h
  | doTouch =>
      simp only [stepCall]
      split <;>
        · unfold matchesKeyUnique at h ⊢
          rw [touchRoom_matchRows]
          exact h
  | checkMembers => exact h
  | checkSwipes memberCount =>
      simp only [stepCall]
      split <;> exact h
  | checkExisting =>
      simp only [stepCall]
      split <;> exact h
  | doInsert =>
      simp only [stepCall]
      rcases hins : insertMatch c.room c.movie s with e | ⟨matchId, s'⟩
      · exact h
      · exact matchesKeyUnique_insertMatch c.room c.movie s matchId s' hins h
  | finished r => exact h

theorem stepSystem_matchesKeyUnique (i : Nat) (sys : SwipeSystem) (s : DBState)
    (h : matchesKeyUnique s) : matchesKeyUnique (stepSystem i sys s).2 := by
  unfold stepSystem
  rcases hg : sys.get? i with - | ⟨c, p⟩
  · simpa [hg] using h
  · simpa [hg] using stepCall_matchesKeyUnique c p s h

theorem runSystem_matchesKeyUnique (sched : List Nat) (sys : SwipeSystem) (s : DBState)
    (h : matchesKeyUnique s) : matchesKeyUnique (runSystem sched sys s).2 := by
  induction sched generalizing sys s with
  | nil => exact h
  | cons i rest ih =>
      unfold runSystem
      exact ih _ _ (stepSystem_matchesKeyUnique i sys s h)

theorem countMatches_le_one_of_unique (roomId movieId : Nat) (s : DBState)
    (h : matchesKeyUnique s) : countMatches roomId movieId s ≤ 1 := by
  unfold countMatches
  unfold matchesKeyUnique at h
  generalize s.matchRows = l at h ⊢
  induction h with
  | nil => simp
  | cons ha hl ih =>
      rename_i a l
      by_cases hp : a.room = roomId ∧ a.movie = movieId
      · have hnil : l.filter (fun mr => decide (mr.room = roomId ∧ mr.movie = movieId)) = [] := by
          rw [List.filter_eq_nil_iff]
          intro b hb
          simp only [decide_eq_true_eq]
          intro hbkey
          exact ha b hb ⟨hp.1.trans hbkey.1.symm, hp.2.trans hbkey.2.symm⟩
        have hcons : (a :: l).filter
            (fun mr => decide (mr.room = roomId ∧ mr.movie = movieId)) =
            a :: l.filter (fun mr => decide (mr.room = roomId ∧ mr.movie = movieId)) :=
          List.filter_cons_of_pos (by simp [hp.1, hp.2])
        rw [hcons, hnil]
        simp
      · simpa [List.filter_cons, hp] using ih

theorem entries_le_one_eq_replicate_one (ext : List Nat) (h1 : ∀ i ∈ ext, i ≤ 1)
    (h0 : ext.count 0 = 0) (hb : ext.count 1 = b) : ext = List.replicate b 1 := by
  have hall : ∀ i ∈ ext, i = 1 := by
    intro i hi
    have := h1 i hi
    have h0' : (0 : Nat) ∉ ext := List.count_eq_zero.mp h0
    interval_cases i
    · exact absurd hi h0'
    · rfl
  have hlen : ext.length = b := by
    rw [← hb]
    rw [List.count_eq_length.mpr (fun i hi => (hall i hi).symm)]
  exact List.eq_replicate_iff.mpr ⟨hlen, hall⟩

theorem entries_le_one_eq_replicate_zero (ext : List Nat) (h1 : ∀ i ∈ ext, i ≤ 1)
    (h0 : ext.count 0 = a) (hb : ext.count 1 = 0) : ext = List.replicate a 0 := by
  have hall : ∀ i ∈ ext, i = 0 := by
    intro i hi
    have := h1 i hi
    have h1' : (1 : Nat) ∉ ext := List.count_eq_zero.mp hb
    interval_cases i
    · rfl
    · exact absurd hi h1'
  have hlen : ext.length = a := by
    rw [← h0]
    rw [List.count_eq_length.mpr (fun i hi => (hall i hi).symm)]
  exact List.eq_replicate_iff.mpr ⟨hlen, hall⟩

theorem allMergesOK_sound :
    ∀ (fuel a b : Nat) (pre : List Nat), a + b < fuel →
      allMergesOK fuel a b pre = true →
      ∀ ext : List Nat, (∀ i ∈ ext, i ≤ 1) → ext.count 0 = a → ext.count 1 = b →
        raceOK (pre ++ ext) = true := by
  intro fuel
  induction fuel with
  | zero => intro a b pre hlt; omega
  | succ f ih =>
      intro a b pre hlt hok ext hle h0 h1
      match a, hok with
      | 0, hok =>
          have hext : ext = List.replicate b 1 := entries_le_one_eq_replicate_one ext hle h0 h1
          rw [hext]
          simpa [allMergesOK] using hok
      | a' + 1, hok =>
          match b, hok with
          | 0, hok =>
              have hext : ext = List.replicate (a' + 1) 0 :=
                entries_le_one_eq_replicate_zero ext hle h0 h1
              rw [hext]
              simpa [allMergesOK] using hok
          | b' + 1, hok =>
              rw [show allMergesOK (f + 1) (a' + 1) (b' + 1) pre =
                    (allMergesOK f a' (b' + 1) (pre ++ [0]) &&
                     allMergesOK f (a' + 1) b' (pre ++ [1])) from rfl,
                  Bool.and_eq_true] at hok
              cases ext with
              | nil => simp at h0
              | cons i ext' =>
                  have hi : i ≤ 1 := hle i (List.mem_cons_self i ext')
                  have hle' : ∀ j ∈ ext', j ≤ 1 := fun j hj => hle j (List.mem_cons_of_mem i hj)
                  interval_cases i
                  · simp [List.count_cons] at h0 h1
                    have h0' : ext'.count 0 = a' := by omega
                    have h1' : ext'.count 1 = b' + 1 := by omega
                    have := ih a' (b' + 1) (pre ++ [0]) (by omega) hok.1 ext' hle' h0' h1'
                    simpa [List.append_assoc] using this
                  · simp [List.count_cons] at h0 h1
                    have h0' : ext'.count 0 = a' + 1 := by omega
                    have h1' : ext'.count 1 = b' := by omega
                    have := ih (a' + 1) b' (pre ++ [1]) (by omega) hok.2 ext' hle' h0' h1'
                    simpa [List.append_assoc] using this

set_option maxRecDepth 40000 in
theorem raceMergesExhaustive : allMergesOK 20 7 7 [] = true := by decide

/-- C1: in every interleaving of any set of concurrent swipe requests the
match table keeps at most one row per (room, movie) — the application
re-check plus the `unique_room_movie` key preserve the uniqueness
invariant across every schedule — and in the canonical race (the two
members of room 1 firing concurrent recordSwipe(right) calls for movie
550) every complete interleaving (every merge of the 7 database
round-trips of each request) ends with exactly one match row. -/
theorem C1_at_most_one_match_per_room_movie :
    (∀ (calls : List SwipeCall) (sched : List Nat) (s : DBState),
        matchesKeyUnique s →
        matchesKeyUnique (runSystem sched (mkSystem calls) s).2) ∧
    (∀ (calls : List SwipeCall) (sched : List Nat) (s : DBState) (roomId movieId : Nat),
        matchesKeyUnique s →
        countMatches roomId movieId (runSystem sched (mkSystem calls) s).2 ≤ 1) ∧
    (∀ sched : List Nat, (∀ i ∈ sched, i ≤ 1) →
        sched.count 0 = 7 → sched.count 1 = 7 →
        countMatches 1 550 (raceRun sched).2 = 1) := by
  refine ⟨fun calls sched s h => runSystem_matchesKeyUnique sched (mkSystem calls) s h,
    fun calls sched s roomId movieId h =>
      countMatches_le_one_of_unique roomId movieId _
        (runSystem_matchesKeyUnique sched (mkSystem calls) s h), ?_⟩
  intro sched hle h0 h1
  have hrace := allMergesOK_sound 20 7 7 [] (by omega) raceMergesExhaustive sched hle h0 h1
  rw [List.nil_append] at hrace
  unfold raceOK at hrace
  rw [Bool.and_eq_true] at hrace
  simpa using hrace.1

/-- Witness for C1 at concrete inputs: a short schedule of the race
system keeps the invariant, and the sequential-then-sequential complete
schedule of the race creates exactly one match. -/
theorem C1_at_most_one_match_per_room_movie_witness :
    matchesKeyUnique (runSystem [0, 1, 0] (mkSystem [callA, callB]) raceState).2 ∧
    countMatches 1 550 (raceRun [0, 0, 0, 0, 0, 0, 0, 1, 1, 1, 1, 1, 1, 1]).2 = 1 :=
  ⟨C1_at_most_one_match_per_room_movie.1 [callA, callB] [0, 1, 0] raceState
     (by unfold matchesKeyUnique; decide),
   C1_at_most_one_match_per_room_movie.2.2 [0, 0, 0, 0, 0, 0, 0, 1, 1, 1, 1, 1, 1, 1]
     (by decide) (by decide) (by decide)⟩

theorem matchRows_any_eq_false_iff (roomId movieId : Nat) (s : DBState) :
    (s.matchRows.any (fun mr => decide (mr.room = roomId ∧ mr.movie = movieId))) = false ↔
      queryMatchIds roomId movieId s = [] := by
  simp [queryMatchIds, List.any_eq_false, List.map_eq_nil_iff, List.filter_eq_nil_iff]

theorem checkAndCreateMatch_spec (userId movieId roomId : Nat) (s : DBState) :
    ∃ result s',
      checkAndCreateMatch userId movieId roomId s = .ok (result, s') ∧
      (result.isMatch = true ↔ matchEligible movieId roomId s) ∧
      (result.isMatch = false → s' = s) ∧
      (result.isMatch = true →
        s'.matchRows = s.matchRows ++ [⟨s.nextMatchId, roomId, movieId⟩] ∧
        s'.members = s.members ∧ s'.swipes = s.swipes ∧
        result.matchId = some s.nextMatchId ∧ result.movieId = some movieId) := by
  by_cases hc1 : (queryRoomMembers roomId s).length < 2 ∨
      (queryRightSwipes movieId roomId s).length < (queryRoomMembers roomId s).length
  · refine ⟨{ isMatch := false }, s, ?_, ?_, fun _ => rfl, by simp⟩
    · simp [checkAndCreateMatch, hc1]
    · simp only [matchEligible]
      constructor
      · intro h; simp at h
      · rintro ⟨h1, h2, -⟩; omega
  · by_cases hc2 : (queryMatchIds roomId movieId s).length > 0
    · refine ⟨{ isMatch := false }, s, ?_, ?_, fun _ => rfl, by simp⟩
      · simp [checkAndCreateMatch, hc1, hc2]
      · simp only [matchEligible]
        constructor
        · intro h; simp at h
        · rintro ⟨-, -, h3⟩
          rw [h3] at hc2
          simp at hc2
    · have hnil : queryMatchIds roomId movieId s = [] := by
        rw [← List.length_eq_zero]
        omega
      have hany : (s.matchRows.any
          (fun mr => decide (mr.room = roomId ∧ mr.movie = movieId))) = false :=
        (matchRows_any_eq_false_iff roomId movieId s).mpr hnil
      refine ⟨{ isMatch := true, matchId := some s.nextMatchId, movieId := some movieId },
        { s with
          matchRows := s.matchRows ++ [⟨s.nextMatchId, roomId, movieId⟩]
          nextMatchId := s.nextMatchId + 1 }, ?_, ?_, by simp, ?_⟩
      · have hnot : ¬∃ x ∈ s.matchRows, x.room = roomId ∧ x.movie = movieId := by
          simpa using hany
        simp [checkAndCreateMatch, hc1, hc2, insertMatch, hnot]
      · simp only [matchEligible, hnil]
        constructor
        · intro _
          exact ⟨by omega, by omega, trivial⟩
        · intro _; trivial
      · intro _
        exact ⟨rfl, rfl, rfl, rfl, rfl⟩

theorem queryRightSwipes_nodup (movieId roomId : Nat) (s : DBState)
    (h : swipesKeyUnique s) : (queryRightSwipes movieId roomId s).Nodup := by
  unfold queryRightSwipes
  unfold swipesKeyUnique at h
  have hfilter : (s.swipes.filter
      (fun w => decide (w.movie = movieId ∧ w.room = roomId ∧
        w.dir = Direction.right))).Pairwise
      (fun a b => ¬ (a.user = b.user ∧ a.movie = b.movie ∧ a.room = b.room)) :=
    h.sublist (List.filter_sublist s.swipes)
  rw [List.Nodup, List.pairwise_map]
  refine List.Pairwise.imp_of_mem ?_ hfilter
  intro a b ha hb hR
  have hpa := (List.mem_filter.mp ha).2
  have hpb := (List.mem_filter.mp hb).2
  simp only [decide_eq_true_eq] at hpa hpb
  intro huser
  exact hR ⟨huser, hpa.1.trans hpb.1.symm, hpa.2.1.trans hpb.2.1.symm⟩

/-- C2 (amended): checkAndCreateMatch never fails sequentially and
creates a match — returning isMatch=true and appending exactly one row —
if and only if the room has at least two members ever (M >= 2), the
distinct right-swipers of the movie number at least M (R >= M), AND no
(room, movie) match row exists yet; in all other cases it returns
isMatch=false and leaves the database untouched.  Under the swipe-table
unique key the counted right-swipe rows are distinct users.  The original
claim omitted the no-existing-match conjunct of the iff. -/
theorem C2_match_creation_iff_eligible (userId movieId roomId : Nat) (s : DBState)
    (h : swipesKeyUnique s) :
    ∃ result s',
      checkAndCreateMatch userId movieId roomId s = .ok (result, s') ∧
      (result.isMatch = true ↔
        2 ≤ (queryRoomMembers roomId s).length ∧
        (queryRoomMembers roomId s).length ≤ (queryRightSwipes movieId roomId s).length ∧
        queryMatchIds roomId movieId s = []) ∧
      (result.isMatch = false → s' = s) ∧
      (result.isMatch = true →
        s'.matchRows = s.matchRows ++ [⟨s.nextMatchId, roomId, movieId⟩]) ∧
      (queryRightSwipes movieId roomId s).Nodup := by
  obtain ⟨result, s', heq, hiff, hfalse, htrue⟩ :=
    checkAndCreateMatch_spec userId movieId roomId s
  refine ⟨result, s', heq, ?_, hfalse, fun ht => (htrue ht).1,
    queryRightSwipes_nodup movieId roomId s h⟩
  simpa [matchEligible] using hiff

/-- Counterexample to C2 as stated: in `c2State` the room has two
members and two distinct right-swipers for movie 550 (M >= 2 and R >= M),
yet checkAndCreateMatch creates no match and changes nothing, because
the (room 1, movie 550) match row already exists. -/
theorem C2_counterexample :
    2 ≤ (queryRoomMembers 1 c2State).length ∧
    (queryRoomMembers 1 c2State).length ≤ (queryRightSwipes 550 1 c2State).length ∧
    checkAndCreateMatch 10 550 1 c2State = .ok ({ isMatch := false }, c2State) :=
  ⟨by decide, by decide, rfl⟩

/-- Witness for C2 at a concrete input: the race-scenario database (two
members, no swipes, no matches) satisfies the swipe-key invariant. -/
theorem C2_match_creation_iff_eligible_witness :
    ∃ result s',
      checkAndCreateMatch 10 550 1 raceState = .ok (result, s') ∧
      (result.isMatch = true ↔
        2 ≤ (queryRoomMembers 1 raceState).length ∧
        (queryRoomMembers 1 raceState).length ≤ (queryRightSwipes 550 1 raceState).length ∧
        queryMatchIds 1 550 raceState = []) ∧
      (result.isMatch = false → s' = raceState) ∧
      (result.isMatch = true →
        s'.matchRows = raceState.matchRows ++ [⟨raceState.nextMatchId, 1, 550⟩]) ∧
      (queryRightSwipes 550 1 raceState).Nodup :=
  C2_match_creation_iff_eligible 10 550 1 raceState (by unfold swipesKeyUnique; decide)

theorem swipeKey_self (u m r : Nat) (d : Direction) (now : Nat) :
    swipeKey u m r ⟨u, m, r, d, now⟩ = true := by
  simp [swipeKey]

theorem swipeKey_update (u m r : Nat) (d : Direction) (now : Nat) (w : Swipe) :
    swipeKey u m r { w with dir := d, swipedAt := now } = swipeKey u m r w := rfl

theorem filter_key_map_update (u m r : Nat) (d : Direction) (now : Nat) :
    ∀ l : List Swipe,
      l.Pairwise (fun a b => ¬ (a.user = b.user ∧ a.movie = b.movie ∧ a.room = b.room)) →
      l.any (swipeKey u m r) = true →
      (l.map (fun w => if swipeKey u m r w then { w with dir := d, swipedAt := now } else w)).filter
          (swipeKey u m r) = [⟨u, m, r, d, now⟩] := by
  intro l
  induction l with
  | nil => intro _ hany; simp at hany
  | cons w ws ih =>
      intro hpw hany
      rcases hpw with - | ⟨hw, hws⟩
      by_cases hk : swipeKey u m r w = true
      · have hkey : w.user = u ∧ w.movie = m ∧ w.room = r := by
          simpa [swipeKey] using hk
        have hupd : ({ w with dir := d, swipedAt := now } : Swipe) = ⟨u, m, r, d, now⟩ := by
          cases w
          simp only at hkey
          simp [hkey.1, hkey.2.1, hkey.2.2]
        have hrest : ∀ b ∈ ws, swipeKey u m r b = false := by
          intro b hb
          by_contra hcontra
          have hbk : b.user = u ∧ b.movie = m ∧ b.room = r := by
            simpa [swipeKey] using hcontra
          exact hw b hb ⟨hkey.1.trans hbk.1.symm, hkey.2.1.trans hbk.2.1.symm,
            hkey.2.2.trans hbk.2.2.symm⟩
        have hnil : (ws.map (fun w =>
            if swipeKey u m r w then { w with dir := d, swipedAt := now } else w)).filter
            (swipeKey u m r) = [] := by
          rw [List.filter_eq_nil_iff]
          intro x hx
          obtain ⟨b, hb, hbx⟩ := List.mem_map.mp hx
          rw [hrest b hb] at hbx
          simp only [Bool.false_eq_true, if_false] at hbx
          subst hbx
          simp [hrest b hb]
        simp only [List.map_cons, hk, if_true, List.filter_cons]
        rw [hupd]
        simp [swipeKey_self, hnil]
      · have hany' : ws.any (swipeKey u m r) = true := by
          rcases List.any_eq_true.mp hany with ⟨x, hx, hxk⟩
          rcases List.mem_cons.mp hx with hxw | hxl
          · subst hxw; exact absurd hxk hk
          · exact List.any_eq_true.mpr ⟨x, hxl, hxk⟩
        have hkf : swipeKey u m r w = false := by
          cases hkk : swipeKey u m r w
          · rfl
          · exact absurd hkk hk
        simp only [List.map_cons, hkf, Bool.false_eq_true, if_false, List.filter_cons, hkf]
        exact ih hws hany'

theorem upsertSwipe_filter_key (u m r : Nat) (d : Direction) (now : Nat) (s : DBState)
    (h : swipesKeyUnique s) :
    (upsertSwipe u m r d now s).swipes.filter (swipeKey u m r) =
      [⟨u, m, r, d, now⟩] := by
  unfold upsertSwipe
  by_cases hany : s.swipes.any (swipeKey u m r) = true
  · simp only [hany, if_true]
    exact filter_key_map_update u m r d now s.swipes h hany
  · have hany' : s.swipes.any (swipeKey u m r) = false := by
      cases hkk : s.swipes.any (swipeKey u m r)
      · rfl
      · exact absurd hkk hany
    simp only [hany', Bool.false_eq_true, if_false]
    have hnil : s.swipes.filter (swipeKey u m r) = [] := by
      rw [List.filter_eq_nil_iff]
      intro x hx hxk
      exact (List.any_eq_false.mp hany') x hx hxk
    simp [List.filter_append, hnil, swipeKey_self]

theorem swipesKeyUnique_upsertSwipe (u m r : Nat) (d : Direction) (now : Nat) (s : DBState)
    (h : swipesKeyUnique s) : swipesKeyUnique (upsertSwipe u m r d now s) := by
  unfold swipesKeyUnique at h ⊢
  unfold upsertSwipe
  by_cases hany : s.swipes.any (swipeKey u m r) = true
  · simp only [hany, if_true]
    refine List.Pairwise.map _ ?_ h
    intro a b hab
    split <;> split <;> simpa using hab
  · have hany' : s.swipes.any (swipeKey u m r) = false := by
      cases hkk : s.swipes.any (swipeKey u m r)
      · rfl
      · exact absurd hkk hany
    simp only [hany', Bool.false_eq_true, if_false]
    rw [List.pairwise_append]
    refine ⟨h, by simp, ?_⟩
    intro a ha b hb
    simp only [List.mem_singleton] at hb
    subst hb
    intro ⟨h1, h2, h3⟩
    exact (List.any_eq_false.mp hany') a ha (by simp [swipeKey, h1, h2, h3])

theorem queryMatchIds_touch_upsert (roomId movieId u m : Nat) (d : Direction)
    (now touchTime : Nat) (s : DBState) :
    queryMatchIds roomId movieId (touchRoom roomId touchTime (upsertSwipe u m roomId d now s)) =
      queryMatchIds roomId movieId s := by
  unfold queryMatchIds
  rw [touchRoom_matchRows, upsertSwipe_matchRows]

/-- The sequential big-step execution of the swipe handler never returns
the 500 outcome: with an atomic snapshot the pre-insert re-check makes the
guarded insert succeed. -/
theorem recordSwipe_never_serverError (userId movieId roomId : Nat) (d : Direction)
    (now : Nat) (s : DBState) :
    (recordSwipe userId movieId roomId d now s).1 ≠ .serverError := by
  unfold recordSwipe
  split
  · simp
  · obtain ⟨res, s3, heq, -, -, -⟩ := checkAndCreateMatch_spec userId movieId roomId
      (touchRoom roomId now (upsertSwipe userId movieId roomId d now s))
    split
    · simp only [heq]
      simp
    · simp

/-- C3 (amended): a duplicate (room, movie) match that is visible to the
pre-insert re-check is non-exceptional — recordSwipe answers a "no match"
result and the swipe row is recorded with the new direction and timestamp
— and the sequential handler never answers 500; but when the duplicate
appears only between the re-check and the insert (the true race, see the
counterexample) the unique-key violation propagates and the loser's
request fails with 500, its swipe still recorded. -/
theorem C3_duplicate_match_returns_no_match :
    (∀ (userId movieId roomId now : Nat) (s : DBState),
      isMember userId roomId s = true → swipesKeyUnique s →
      (∃ mr ∈ s.matchRows, mr.room = roomId ∧ mr.movie = movieId) →
      ∃ s', recordSwipe userId movieId roomId .right now s = (.created none, s') ∧
        s'.swipes.filter (swipeKey userId movieId roomId) =
          [⟨userId, movieId, roomId, Direction.right, now⟩]) ∧
    (∀ (userId movieId roomId : Nat) (d : Direction) (now : Nat) (s : DBState),
      (recordSwipe userId movieId roomId d now s).1 ≠ .serverError) := by
  refine ⟨?_, recordSwipe_never_serverError⟩
  intro u m r now s hm hu hex
  obtain ⟨res, s3, heq, hiff, hfalse, htrue⟩ := checkAndCreateMatch_spec u m r
    (touchRoom r now (upsertSwipe u m r .right now s))
  have hne : queryMatchIds r m (touchRoom r now (upsertSwipe u m r .right now s)) ≠ [] := by
    rw [queryMatchIds_touch_upsert]
    intro hnil
    rw [queryMatchIds, List.map_eq_nil_iff, List.filter_eq_nil_iff] at hnil
    obtain ⟨mr, hmr, h1, h2⟩ := hex
    exact hnil mr hmr (by simp [h1, h2])
  have hmf : res.isMatch = false := by
    cases hres : res.isMatch
    · rfl
    · exact absurd ((hiff.mp hres).2.2) hne
  have hs3 : s3 = touchRoom r now (upsertSwipe u m r .right now s) := hfalse hmf
  refine ⟨touchRoom r now (upsertSwipe u m r .right now s), ?_, ?_⟩
  · unfold recordSwipe
    rw [if_neg (by simp [hm])]
    simp only [heq]
    simp [hmf, hs3]
  · rw [touchRoom_swipes]
    exact upsertSwipe_filter_key u m r .right now s hu

/-- Counterexample to C3 as stated: schedule both race requests through
the pre-insert re-check before either inserts; the winner's response
carries the match, the loser's insert hits the unique key and its request
ends in the 500 serverError outcome — not a "no match" result — although
the loser's swipe row (user 20) is durably recorded. -/
theorem C3_counterexample :
    ((raceRun [0, 0, 1, 1, 0, 0, 0, 0, 1, 1, 1, 1, 0, 1]).1.map (fun cp => cp.2) =
      [.finished (.created (some { isMatch := true, matchId := some 1, movieId := some 550 })),
       .finished .serverError]) ∧
    (raceRun [0, 0, 1, 1, 0, 0, 0, 0, 1, 1, 1, 1, 0, 1]).2.swipes.filter (swipeKey 20 550 1) =
      [⟨20, 550, 1, Direction.right, 6⟩] :=
  ⟨rfl, rfl⟩

/-- Witness for C3 at a concrete input: user 10 right-swipes movie 550
again in `c2State`, where the (room 1, movie 550) match row already
exists. -/
theorem C3_duplicate_match_returns_no_match_witness :
    (∃ s', recordSwipe 10 550 1 .right 9 c2State = (.created none, s') ∧
      s'.swipes.filter (swipeKey 10 550 1) = [⟨10, 550, 1, Direction.right, 9⟩]) ∧
    (recordSwipe 10 550 1 .right 9 c2State).1 ≠ .serverError :=
  ⟨C3_duplicate_match_returns_no_match.1 10 550 1 9 c2State (by decide)
     (by unfold swipesKeyUnique; decide) ⟨⟨1, 1, 550⟩, by decide, rfl, rfl⟩,
   C3_duplicate_match_returns_no_match.2 10 550 1 .right 9 c2State⟩

theorem checkAndCreateMatch_ok_members_swipes (userId movieId roomId : Nat) (s : DBState)
    (res : MatchResult) (s3 : DBState)
    (heq : checkAndCreateMatch userId movieId roomId s = .ok (res, s3)) :
    s3.members = s.members ∧ s3.swipes = s.swipes := by
  obtain ⟨res', s3', heq', hiff, hfalse, htrue⟩ := checkAndCreateMatch_spec userId movieId roomId s
  rw [heq] at heq'
  injection heq' with h
  injection h with h1 h2
  subst h1; subst h2
  cases hres : res.isMatch
  · rw [hfalse hres]
    exact ⟨rfl, rfl⟩
  · obtain ⟨-, hmem, hsw, -, -⟩ := htrue hres
    exact ⟨hmem, hsw⟩

theorem recordSwipe_snd_members (userId movieId roomId : Nat) (d : Direction) (now : Nat)
    (s : DBState) : (recordSwipe userId movieId roomId d now s).2.members = s.members := by
  unfold recordSwipe
  split
  · rfl
  · obtain ⟨res, s3, heq, -, -, -⟩ := checkAndCreateMatch_spec userId movieId roomId
      (touchRoom roomId now (upsertSwipe userId movieId roomId d now s))
    split
    · simp only [heq]
      have := (checkAndCreateMatch_ok_members_swipes userId movieId roomId
        (touchRoom roomId now (upsertSwipe userId movieId roomId d now s)) res s3 heq).1
      simp only [this, touchRoom_members, upsertSwipe_members]
    · simp only [touchRoom_members, upsertSwipe_members]

theorem recordSwipe_snd_swipes (userId movieId roomId : Nat) (d : Direction) (now : Nat)
    (s : DBState) (hm : isMember userId roomId s = true) :
    (recordSwipe userId movieId roomId d now s).2.swipes =
      (upsertSwipe userId movieId roomId d now s).swipes := by
  unfold recordSwipe
  rw [if_neg (by simp [hm])]
  obtain ⟨res, s3, heq, -, -, -⟩ := checkAndCreateMatch_spec userId movieId roomId
    (touchRoom roomId now (upsertSwipe userId movieId roomId d now s))
  split
  · simp only [heq]
    have := (checkAndCreateMatch_ok_members_swipes userId movieId roomId
      (touchRoom roomId now (upsertSwipe userId movieId roomId d now s)) res s3 heq).2
    simp only [this, touchRoom_swipes]
  · simp only [touchRoom_swipes]

theorem isMember_recordSwipe (userId movieId roomId u r : Nat) (d : Direction) (now : Nat)
    (s : DBState) :
    isMember u r (recordSwipe userId movieId roomId d now s).2 = isMember u r s := by
  unfold isMember
  rw [recordSwipe_snd_members]

theorem swipesKeyUnique_recordSwipe (userId movieId roomId : Nat) (d : Direction)
    (now : Nat) (s : DBState) (hu : swipesKeyUnique s) :
    swipesKeyUnique (recordSwipe userId movieId roomId d now s).2 := by
  by_cases hm : isMember userId roomId s = true
  · unfold swipesKeyUnique
    rw [recordSwipe_snd_swipes userId movieId roomId d now s hm]
    exact swipesKeyUnique_upsertSwipe userId movieId roomId d now s hu
  · unfold recordSwipe
    rw [if_pos (by simp [hm])]
    exact hu

theorem recordSwipe_right_eq (userId movieId roomId now : Nat) (s : DBState)
    (hm : isMember userId roomId s = true) (res : MatchResult) (s3 : DBState)
    (heq : checkAndCreateMatch userId movieId roomId
      (touchRoom roomId now (upsertSwipe userId movieId roomId .right now s)) =
      .ok (res, s3)) :
    recordSwipe userId movieId roomId .right now s =
      (.created (if res.isMatch = true then some res else none), s3) := by
  unfold recordSwipe
  rw [if_neg (by simp [hm])]
  simp only [heq]
  simp

theorem applySwipes_members (userId movieId roomId : Nat) (seq : List (Direction × Nat))
    (s : DBState) : (applySwipes userId movieId roomId seq s).members = s.members := by
  induction seq generalizing s with
  | nil => rfl
  | cons q rest ih =>
      unfold applySwipes
      rw [List.foldl_cons]
      rw [show List.foldl (fun st q => (recordSwipe userId movieId roomId q.1 q.2 st).2)
        ((recordSwipe userId movieId roomId q.1 q.2 s).2) rest =
        applySwipes userId movieId roomId rest
          ((recordSwipe userId movieId roomId q.1 q.2 s).2) from rfl]
      rw [ih, recordSwipe_snd_members]

theorem isMember_applySwipes (userId movieId roomId u r : Nat)
    (seq : List (Direction × Nat)) (s : DBState) :
    isMember u r (applySwipes userId movieId roomId seq s) = isMember u r s := by
  unfold isMember
  rw [applySwipes_members]

theorem swipesKeyUnique_applySwipes (userId movieId roomId : Nat)
    (seq : List (Direction × Nat)) (s : DBState) (hu : swipesKeyUnique s) :
    swipesKeyUnique (applySwipes userId movieId roomId seq s) := by
  induction seq generalizing s with
  | nil => exact hu
  | cons q rest ih =>
      unfold applySwipes
      rw [List.foldl_cons]
      exact ih _ (swipesKeyUnique_recordSwipe userId movieId roomId q.1 q.2 s hu)

/-- C4: for a member, right-then-left-then-right swipes on the same
(movie, room) leave exactly one swipe row for the (user, movie, room) key,
carrying the last direction (right) and the last timestamp, and the final
right-swipe re-evaluates match detection: its response carries a match
payload exactly when the post-upsert state satisfies the detector's
eligibility condition.  More generally, after any nonempty sequence of
swipe submissions the single row for the key carries the last submitted
direction and timestamp. -/
theorem C4_upsert_last_write_wins (userId movieId roomId t1 t2 t3 : Nat) (s : DBState)
    (hm : isMember userId roomId s = true) (hu : swipesKeyUnique s) :
    (recordSwipe userId movieId roomId .right t3
        (recordSwipe userId movieId roomId .left t2
          (recordSwipe userId movieId roomId .right t1 s).2).2).2.swipes.filter
        (swipeKey userId movieId roomId) =
      [⟨userId, movieId, roomId, Direction.right, t3⟩] ∧
    ((∃ res, (recordSwipe userId movieId roomId .right t3
        (recordSwipe userId movieId roomId .left t2
          (recordSwipe userId movieId roomId .right t1 s).2).2).1 = .created (some res)) ↔
      matchEligible movieId roomId
        (touchRoom roomId t3 (upsertSwipe userId movieId roomId .right t3
          (recordSwipe userId movieId roomId .left t2
            (recordSwipe userId movieId roomId .right t1 s).2).2))) ∧
    (∀ (seq : List (Direction × Nat)) (d : Direction) (tn : Nat),
      (applySwipes userId movieId roomId (seq ++ [(d, tn)]) s).swipes.filter
        (swipeKey userId movieId roomId) = [⟨userId, movieId, roomId, d, tn⟩]) := by
  have hm1 : isMember userId roomId (recordSwipe userId movieId roomId .right t1 s).2 = true := by
    rw [isMember_recordSwipe]; exact hm
  have hu1 : swipesKeyUnique (recordSwipe userId movieId roomId .right t1 s).2 :=
    swipesKeyUnique_recordSwipe userId movieId roomId .right t1 s hu
  have hm2 : isMember userId roomId (recordSwipe userId movieId roomId .left t2
      (recordSwipe userId movieId roomId .right t1 s).2).2 = true := by
    rw [isMember_recordSwipe]; exact hm1
  have hu2 : swipesKeyUnique (recordSwipe userId movieId roomId .left t2
      (recordSwipe userId movieId roomId .right t1 s).2).2 :=
    swipesKeyUnique_recordSwipe userId movieId roomId .left t2 _ hu1
  obtain ⟨res, s3, heq, hiff, hfalse, htrue⟩ := checkAndCreateMatch_spec userId movieId roomId
    (touchRoom roomId t3 (upsertSwipe userId movieId roomId .right t3
      (recordSwipe userId movieId roomId .left t2
        (recordSwipe userId movieId roomId .right t1 s).2).2))
  have hout : recordSwipe userId movieId roomId .right t3
      (recordSwipe userId movieId roomId .left t2
        (recordSwipe userId movieId roomId .right t1 s).2).2 =
      (.created (if res.isMatch = true then some res else none), s3) :=
    recordSwipe_right_eq userId movieId roomId t3 _ hm2 res s3 heq
  refine ⟨?_, ?_, ?_⟩
  · rw [recordSwipe_snd_swipes userId movieId roomId .right t3 _ hm2]
    exact upsertSwipe_filter_key userId movieId roomId .right t3 _ hu2
  · rw [hout]
    constructor
    · rintro ⟨res', hres'⟩
      cases hres : res.isMatch
      · rw [hres] at hres'
        simp at hres'
      · exact hiff.mp hres
    · intro helig
      refine ⟨res, ?_⟩
      rw [hiff.mpr helig]
      simp
  · intro seq d tn
    have hfold : applySwipes userId movieId roomId (seq ++ [(d, tn)]) s =
        (recordSwipe userId movieId roomId d tn
          (applySwipes userId movieId roomId seq s)).2 := by
      unfold applySwipes
      rw [List.foldl_append]
      rfl
    have hmSeq : isMember userId roomId (applySwipes userId movieId roomId seq s) = true := by
      rw [isMember_applySwipes]
      exact hm
    rw [hfold, recordSwipe_snd_swipes userId movieId roomId d tn _ hmSeq]
    exact upsertSwipe_filter_key userId movieId roomId d tn _
      (swipesKeyUnique_applySwipes userId movieId roomId seq s hu)

/-- Witness for C4 at a concrete input: user 10 swipes right, left,
right on movie 550 in the two-member race-scenario room. -/
theorem C4_upsert_last_write_wins_witness :
    (recordSwipe 10 550 1 .right 3
        (recordSwipe 10 550 1 .left 2
          (recordSwipe 10 550 1 .right 1 raceState).2).2).2.swipes.filter
        (swipeKey 10 550 1) =
      [⟨10, 550, 1, Direction.right, 3⟩] ∧
    ((∃ res, (recordSwipe 10 550 1 .right 3
        (recordSwipe 10 550 1 .left 2
          (recordSwipe 10 550 1 .right 1 raceState).2).2).1 = .created (some res)) ↔
      matchEligible 550 1
        (touchRoom 1 3 (upsertSwipe 10 550 1 .right 3
          (recordSwipe 10 550 1 .left 2
            (recordSwipe 10 550 1 .right 1 raceState).2).2))) ∧
    (applySwipes 10 550 1 ([(.left, 4), (.right, 5)] ++ [(.right, 6)]) raceState).swipes.filter
        (swipeKey 10 550 1) = [⟨10, 550, 1, Direction.right, 6⟩] :=
  ⟨(C4_upsert_last_write_wins 10 550 1 1 2 3 raceState (by decide)
      (by unfold swipesKeyUnique; decide)).1,
   (C4_upsert_last_write_wins 10 550 1 1 2 3 raceState (by decide)
      (by unfold swipesKeyUnique; decide)).2.1,
   (C4_upsert_last_write_wins 10 550 1 1 2 3 raceState (by decide)
      (by unfold swipesKeyUnique; decide)).2.2 [(.left, 4), (.right, 5)] .right 6⟩

theorem unseenRows_map_movie (userId roomId : Nat) (s : DBState) :
    (unseenRows userId roomId s).map (fun row => row.movie) =
      ((orderedStack roomId s).map (fun row => row.movie)).filter
        (fun movieId => ¬ (userSwipedIds userId roomId s).contains movieId) := by
  unfold unseenRows
  rw [List.filter_map]
  rfl

/-- C5: for a member and any page number p >= 1 the feed handler returns
exactly the spec's slice — the ordered stack ids minus the caller's
swiped ids, positions [(p-1)*20, p*20) — hence no page ever contains an
already-swiped movie id and a page holds at most 20 ids. -/
theorem C5_feed_page_is_filtered_slice (userId roomId p : Nat) (s : DBState)
    (hm : isMember userId roomId s = true) (hp : 1 ≤ p) :
    getPage userId roomId p s =
      .ok p (feedPageSpec ((orderedStack roomId s).map (fun row => row.movie))
        (userSwipedIds userId roomId s) p) ∧
    (∀ movieId ∈ feedPageSpec ((orderedStack roomId s).map (fun row => row.movie))
        (userSwipedIds userId roomId s) p,
      movieId ∉ userSwipedIds userId roomId s) ∧
    (feedPageSpec ((orderedStack roomId s).map (fun row => row.movie))
        (userSwipedIds userId roomId s) p).length ≤ 20 := by
  have hmax : max 1 p = p := Nat.max_eq_right hp
  refine ⟨?_, ?_, ?_⟩
  · unfold getPage
    rw [if_neg (by simp [hm])]
    simp only [hmax]
    unfold feedPageSpec
    rw [← unseenRows_map_movie, List.map_take, List.map_drop]
  · intro movieId hmem
    unfold feedPageSpec at hmem
    have h1 := List.mem_of_mem_take hmem
    have h2 := List.mem_of_mem_drop h1
    have h3 := (List.mem_filter.mp h2).2
    simp only [decide_eq_true_eq] at h3
    intro habs
    exact h3 (List.elem_iff.mpr habs)
  · unfold feedPageSpec
    exact List.length_take_le 20 _

/-- Witness for C5 at a concrete input: member 10 of room 1 requests page
1 of `feedState`. -/
theorem C5_feed_page_is_filtered_slice_witness :
    getPage 10 1 1 feedState =
      .ok 1 (feedPageSpec ((orderedStack 1 feedState).map (fun row => row.movie))
        (userSwipedIds 10 1 feedState) 1) ∧
    (∀ movieId ∈ feedPageSpec ((orderedStack 1 feedState).map (fun row => row.movie))
        (userSwipedIds 10 1 feedState) 1,
      movieId ∉ userSwipedIds 10 1 feedState) ∧
    (feedPageSpec ((orderedStack 1 feedState).map (fun row => row.movie))
        (userSwipedIds 10 1 feedState) 1).length ≤ 20 :=
  C5_feed_page_is_filtered_slice 10 1 1 feedState (by decide) (by decide)

/-- Counterexample to C6 as stated: the stack-feed handler `getPage`
answers the exhausted user (room 1 of `c6ExhaustedState`, zero unseen
candidates) and the non-exhausted user (room 1 of `c6SparseState`, one
unseen candidate but an out-of-range page) with identical responses, so
its "stack exhausted" situation is not distinguishable from an empty
page; only the separate next-movie handler carries an explicit marker. -/
theorem C6_counterexample :
    getPage 10 1 2 c6ExhaustedState = getPage 10 1 2 c6SparseState ∧
    getPage 10 1 2 c6ExhaustedState = .ok 2 [] ∧
    unseenRows 10 1 c6ExhaustedState = [] ∧
    unseenRows 10 1 c6SparseState ≠ [] :=
  ⟨rfl, rfl, rfl, by decide⟩

/-- C6 (amended): the stack-feed handler returns the same empty-movies
response whether the user's candidates are exhausted or the page is
merely out of range; the explicit stack-exhausted outcome exists only on
the next-movie handler, which returns `stackEmpty` exactly when the
member has zero unseen candidates. -/
theorem C6_stack_exhausted_signal (userId roomId : Nat) (s : DBState)
    (hm : isMember userId roomId s = true) :
    (nextMovie userId roomId s = .stackEmpty ↔ unseenRows userId roomId s = []) ∧
    (∀ p, unseenRows userId roomId s = [] →
      getPage userId roomId p s = .ok (max 1 p) []) := by
  constructor
  · unfold nextMovie
    rw [if_neg (by simp [hm])]
    rcases hfind : (orderedStack roomId s).find?
        (fun row => ¬ (userSwipedIds userId roomId s).contains row.movie) with - | row
    · rw [hfind]
      constructor
      · intro _
        unfold unseenRows
        rw [List.filter_eq_nil_iff]
        intro row hrow hpred
        have := List.find?_eq_none.mp hfind row hrow
        exact this hpred
      · intro _; rfl
    · rw [hfind]
      constructor
      · intro habs
        exact NextMovieResponse.noConfusion habs
      · intro hnil
        exfalso
        have hmem := List.mem_of_find?_eq_some hfind
        have hpred := List.find?_some hfind
        have : row ∈ unseenRows userId roomId s := by
          unfold unseenRows
          exact List.mem_filter.mpr ⟨hmem, hpred⟩
        rw [hnil] at this
        exact List.not_mem_nil row this
  · intro p hnil
    unfold getPage
    rw [if_neg (by simp [hm])]
    rw [hnil]
    simp

/-- Witness for C6 at a concrete input: member 10 of room 1 in
`c6ExhaustedState`. -/
theorem C6_stack_exhausted_signal_witness :
    (nextMovie 10 1 c6ExhaustedState = .stackEmpty ↔
      unseenRows 10 1 c6ExhaustedState = []) ∧
    (∀ p, unseenRows 10 1 c6ExhaustedState = [] →
      getPage 10 1 p c6ExhaustedState = .ok (max 1 p) []) :=
  C6_stack_exhausted_signal 10 1 c6ExhaustedState (by decide)

theorem deleteRoomStack_rows_self (roomId : Nat) (s : DBState) :
    roomStackRows roomId (deleteRoomStack roomId s) = [] := by
  unfold roomStackRows deleteRoomStack
  rw [List.filter_filter, List.filter_eq_nil_iff]
  intro row hrow
  simp

theorem deleteRoomStack_rows_other (r' roomId : Nat) (hne : r' ≠ roomId) (s : DBState) :
    roomStackRows r' (deleteRoomStack roomId s) = roomStackRows r' s := by
  unfold roomStackRows deleteRoomStack
  rw [List.filter_filter]
  apply List.filter_congr
  intro row hrow
  by_cases h : row.room = r'
  · simp only [h]
    simp [hne]
  · simp [h]

theorem insertRoomStackRows_rows_self (roomId : Nat) (ids : List Nat) (s : DBState) :
    roomStackRows roomId (insertRoomStackRows roomId ids s) =
      roomStackRows roomId s ++ ids.enum.map (fun q => ⟨roomId, q.2, q.1⟩) := by
  unfold roomStackRows insertRoomStackRows
  rw [List.filter_append]
  congr 1
  rw [List.filter_eq_self]
  intro row hrow
  obtain ⟨q, hq, hqrow⟩ := List.mem_map.mp hrow
  subst hqrow
  simp

theorem insertRoomStackRows_rows_other (r' roomId : Nat) (hne : r' ≠ roomId)
    (ids : List Nat) (s : DBState) :
    roomStackRows r' (insertRoomStackRows roomId ids s) = roomStackRows r' s := by
  unfold roomStackRows insertRoomStackRows
  rw [List.filter_append]
  have hnil : (ids.enum.map (fun q => (⟨roomId, q.2, q.1⟩ : StackRow))).filter
      (fun row => decide (row.room = r')) = [] := by
    rw [List.filter_eq_nil_iff]
    intro row hrow
    obtain ⟨q, hq, hqrow⟩ := List.mem_map.mp hrow
    subst hqrow
    simp [Ne.symm hne]
  rw [hnil, List.append_nil]

theorem generateRoomStack_rows (roomId : Nat) (cfg : Bool) (provider : Nat → PageFetch)
    (s : DBState) :
    roomStackRows roomId (generateRoomStack roomId cfg provider s).2 =
      (latestBuildIds cfg provider).enum.map (fun q => ⟨roomId, q.2, q.1⟩) := by
  unfold generateRoomStack latestBuildIds
  by_cases hcfg : cfg = true
  · rcases hfp : fetchPages provider 1 5 [] with e | ids
    · simp [hcfg, hfp, deleteRoomStack_rows_self]
    · by_cases hids : ids = []
      · simp [hcfg, hfp, hids, deleteRoomStack_rows_self]
      · simp [hcfg, hfp, hids, insertRoomStackRows_rows_self, deleteRoomStack_rows_self]
  · have hc : cfg = false := by revert hcfg; cases cfg <;> simp
    simp [hc, deleteRoomStack_rows_self]

theorem generateRoomStack_rows_other (r' roomId : Nat) (hne : r' ≠ roomId) (cfg : Bool)
    (provider : Nat → PageFetch) (s : DBState) :
    roomStackRows r' (generateRoomStack roomId cfg provider s).2 =
      roomStackRows r' s := by
  unfold generateRoomStack
  by_cases hcfg : cfg = true
  · rcases hfp : fetchPages provider 1 5 [] with e | ids
    · simp [hcfg, hfp, deleteRoomStack_rows_other r' roomId hne]
    · by_cases hids : ids = []
      · simp [hcfg, hfp, hids, deleteRoomStack_rows_other r' roomId hne]
      · simp [hcfg, hfp, hids, insertRoomStackRows_rows_other r' roomId hne,
          deleteRoomStack_rows_other r' roomId hne]
  · have hc : cfg = false := by revert hcfg; cases cfg <;> simp
    simp [hc, deleteRoomStack_rows_other r' roomId hne]

/-- C7: every run of generateRoomStack fully replaces the room's stack:
the persisted rows are a function of the provider's responses alone (the
prior stack never appears in them), their positions are the dense range
0..n-1, and rows of other rooms are untouched. -/
theorem C7_build_replaces_stack (roomId : Nat) (cfg : Bool) (provider : Nat → PageFetch)
    (s : DBState) :
    roomStackRows roomId (generateRoomStack roomId cfg provider s).2 =
      (latestBuildIds cfg provider).enum.map (fun q => ⟨roomId, q.2, q.1⟩) ∧
    (roomStackRows roomId (generateRoomStack roomId cfg provider s).2).map
        (fun row => row.position) =
      List.range (latestBuildIds cfg provider).length ∧
    (∀ r', r' ≠ roomId →
      roomStackRows r' (generateRoomStack roomId cfg provider s).2 =
        roomStackRows r' s) := by
  refine ⟨generateRoomStack_rows roomId cfg provider s, ?_,
    fun r' hne => generateRoomStack_rows_other r' roomId hne cfg provider s⟩
  rw [generateRoomStack_rows roomId cfg provider s, List.map_map]
  have : ((fun row => StackRow.position row) ∘ fun q => (⟨roomId, q.2, q.1⟩ : StackRow)) =
      Prod.fst := rfl
  rw [this, List.enum_map_fst]

/-- Witness for C7 at a concrete input: building room 1's stack over
`feedState` with the all-ok provider, with room 2 as the untouched other
room. -/
theorem C7_build_replaces_stack_witness :
    roomStackRows 1 (generateRoomStack 1 true okProvider feedState).2 =
      (latestBuildIds true okProvider).enum.map (fun q => ⟨1, q.2, q.1⟩) ∧
    roomStackRows 2 (generateRoomStack 1 true okProvider feedState).2 =
      roomStackRows 2 feedState :=
  ⟨(C7_build_replaces_stack 1 true okProvider feedState).1,
   (C7_build_replaces_stack 1 true okProvider feedState).2.2 2 (by decide)⟩

/-- Counterexample to C8 as stated: a provider page that repeats movie id
550 makes generateRoomStack persist the id at two stack positions of the
same room — the builder performs no local deduplication and the
room_stack table has no unique (room, movie) key. -/
theorem C8_counterexample :
    ¬ ((roomStackRows 1 (generateRoomStack 1 true dupPagesProvider raceState).2).map
        (fun row => row.movie)).Nodup := by
  decide

/-- C8 (amended): the persisted stack ids are exactly the concatenation
of the provider's page results, so the stack is duplicate-free exactly
when that concatenation is; the code adds no deduplication of its own. -/
theorem C8_no_duplicates_if_provider_disjoint (roomId : Nat) (cfg : Bool)
    (provider : Nat → PageFetch) (s : DBState) :
    ((roomStackRows roomId (generateRoomStack roomId cfg provider s).2).map
        (fun row => row.movie)) = latestBuildIds cfg provider ∧
    ((latestBuildIds cfg provider).Nodup →
      ((roomStackRows roomId (generateRoomStack roomId cfg provider s).2).map
        (fun row => row.movie)).Nodup) := by
  have hrows : ((roomStackRows roomId (generateRoomStack roomId cfg provider s).2).map
      (fun row => row.movie)) = latestBuildIds cfg provider := by
    rw [generateRoomStack_rows roomId cfg provider s, List.map_map]
    have : ((fun row => StackRow.movie row) ∘ fun q => (⟨roomId, q.2, q.1⟩ : StackRow)) =
        Prod.snd := rfl
    rw [this, List.enum_map_snd]
  exact ⟨hrows, fun hnd => hrows ▸ hnd⟩

/-- Witness for C8 at a concrete input: the all-ok provider returns the
pairwise-distinct ids [1, 2, 3, 4, 5] across its five pages. -/
theorem C8_no_duplicates_if_provider_disjoint_witness :
    ((roomStackRows 1 (generateRoomStack 1 true okProvider raceState).2).map
        (fun row => row.movie)) = latestBuildIds true okProvider ∧
    ((roomStackRows 1 (generateRoomStack 1 true okProvider raceState).2).map
        (fun row => row.movie)).Nodup :=
  ⟨(C8_no_duplicates_if_provider_disjoint 1 true okProvider raceState).1,
   (C8_no_duplicates_if_provider_disjoint 1 true okProvider raceState).2 (by decide)⟩

theorem fetchPages_ok_of_no_throw (provider : Nat → PageFetch) :
    ∀ (remaining page : Nat) (acc : List Nat),
      (∀ j, page ≤ j → j < page + remaining → provider j ≠ .networkThrow) →
      ∃ ids, fetchPages provider page remaining acc = .ok ids := by
  intro remaining
  induction remaining with
  | zero => intro page acc _; exact ⟨acc, rfl⟩
  | succ r ih =>
      intro page acc hno
      rcases hp : provider page with ids | - | -
      · obtain ⟨out, hout⟩ := ih (page + 1) (acc ++ ids)
          (fun j h1 h2 => hno j (by omega) (by omega))
        exact ⟨out, by rw [fetchPages, hp]; exact hout⟩
      · exact ⟨acc, by rw [fetchPages, hp]⟩
      · exact absurd hp (hno page (by omega) (by omega))

theorem fetchPages_stop (provider : Nat → PageFetch) (f : Nat → List Nat) (k : Nat)
    (hk : provider k = .httpError) :
    ∀ (remaining page : Nat) (acc : List Nat), page ≤ k → k < page + remaining →
      (∀ j, page ≤ j → j < k → provider j = .ok (f j)) →
      fetchPages provider page remaining acc = .ok (acc ++ gatherPages f page (k - page)) := by
  intro remaining
  induction remaining with
  | zero => intro page acc h1 h2 _; omega
  | succ r ih =>
      intro page acc h1 h2 hok
      by_cases hpk : page = k
      · subst hpk
        rw [fetchPages, hk]
        simp [gatherPages]
      · have hlt : page < k := by omega
        have hpage : provider page = .ok (f page) := hok page (by omega) hlt
        rw [fetchPages, hpage]
        have := ih (page + 1) (acc ++ f page) (by omega) (by omega)
          (fun j ha hb => hok j (by omega) hb)
        show fetchPages provider (page + 1) r (acc ++ f page) =
          Except.ok (acc ++ gatherPages f page (k - page))
        rw [this]
        have hsub : k - page = (k - (page + 1)) + 1 := by omega
        rw [hsub, gatherPages, List.append_assoc]

/-- Counterexample to C9 as stated: with the api key configured, a
provider whose page fetch rejects (a network failure rather than a non-ok
status) makes generateRoomStack throw: the outer catch rethrows, so an
ordinary page fetch failure does surface a fatal error to the caller. -/
theorem C9_counterexample :
    (generateRoomStack 1 true throwProvider raceState).1 = .error .fetchFailed := rfl

/-- C9 (amended): only a non-ok HTTP response stops the page loop early
and persists what was accumulated (the build completes without error);
a page fetch that throws propagates out of the build as a fatal error,
as does a missing api key. -/
theorem C9_partial_persist_on_http_error :
    (∀ (provider : Nat → PageFetch) (roomId : Nat) (s : DBState),
      (∀ p, 1 ≤ p → p ≤ 5 → provider p ≠ .networkThrow) →
      (generateRoomStack roomId true provider s).1 = .ok ()) ∧
    (∀ (provider : Nat → PageFetch) (f : Nat → List Nat) (k roomId : Nat) (s : DBState),
      1 ≤ k → k ≤ 5 →
      (∀ j, 1 ≤ j → j < k → provider j = .ok (f j)) →
      provider k = .httpError →
      (generateRoomStack roomId true provider s).1 = .ok () ∧
      roomStackRows roomId (generateRoomStack roomId true provider s).2 =
        (gatherPages f 1 (k - 1)).enum.map (fun q => ⟨roomId, q.2, q.1⟩)) ∧
    (∀ (provider : Nat → PageFetch) (roomId : Nat) (s : DBState),
      (generateRoomStack roomId false provider s).1 = .error .notConfigured) := by
  refine ⟨?_, ?_, fun provider roomId s => rfl⟩
  · intro provider roomId s hno
    obtain ⟨ids, hids⟩ := fetchPages_ok_of_no_throw provider 5 1 []
      (fun j h1 h2 => hno j h1 (by omega))
    unfold generateRoomStack
    rw [hids]
    by_cases h : ids = [] <;> simp [h]
  · intro provider f k roomId s hk1 hk5 hok hhttp
    have hfp : fetchPages provider 1 5 [] = .ok (gatherPages f 1 (k - 1)) := by
      have := fetchPages_stop provider f k hhttp 5 1 [] hk1 (by omega) hok
      simpa using this
    constructor
    · unfold generateRoomStack
      rw [hfp]
      by_cases h : gatherPages f 1 (k - 1) = [] <;> simp [h]
    · rw [generateRoomStack_rows roomId true provider s]
      unfold latestBuildIds
      rw [hfp]
      simp

/-- Witness for C9 at concrete inputs: `stopAtTwoProvider` succeeds on
page 1 and answers non-ok on page 2, so the build completes and persists
the page-1 ids; an unconfigured key fails. -/
theorem C9_partial_persist_on_http_error_witness :
    (generateRoomStack 1 true stopAtTwoProvider raceState).1 = .ok () ∧
    roomStackRows 1 (generateRoomStack 1 true stopAtTwoProvider raceState).2 =
      (gatherPages (fun _ => [7, 8]) 1 1).enum.map (fun q => ⟨1, q.2, q.1⟩) ∧
    (generateRoomStack 1 false stopAtTwoProvider raceState).1 = .error .notConfigured := by
  have h := C9_partial_persist_on_http_error.2.1 stopAtTwoProvider (fun _ => [7, 8]) 2 1
    raceState (by decide) (by decide)
    (by intro j h1 h2; interval_cases j; rfl) rfl
  exact ⟨h.1, h.2, C9_partial_persist_on_http_error.2.2 stopAtTwoProvider 1 raceState⟩

/-- C10: generateRoomStack deletes the room's stack rows first, before
the api-key check and before any page fetch: when the key is unconfigured
or the page loop throws, the function returns the error with the database
exactly as the initial DELETE left it, and whenever the build ends in an
error — or accumulates no ids — the room's stack is empty; the prior
stack is never restored. -/
theorem C10_delete_first_empty_on_failure (roomId : Nat) (cfg : Bool)
    (provider : Nat → PageFetch) (s : DBState) :
    (∀ e, (generateRoomStack roomId cfg provider s).1 = .error e →
      roomStackRows roomId (generateRoomStack roomId cfg provider s).2 = []) ∧
    (cfg = false →
      generateRoomStack roomId cfg provider s = (.error .notConfigured, deleteRoomStack roomId s)) ∧
    (fetchPages provider 1 5 [] = .error .fetchFailed → cfg = true →
      generateRoomStack roomId cfg provider s = (.error .fetchFailed, deleteRoomStack roomId s)) ∧
    (fetchPages provider 1 5 [] = .ok [] → cfg = true →
      generateRoomStack roomId cfg provider s = (.ok (), deleteRoomStack roomId s)) := by
  refine ⟨?_, ?_, ?_, ?_⟩
  · intro e herr
    rw [generateRoomStack_rows roomId cfg provider s]
    unfold latestBuildIds
    by_cases hcfg : cfg = true
    · rcases hfp : fetchPages provider 1 5 [] with e' | ids
      · simp [hcfg, hfp]
      · by_cases hids : ids = []
        · simp [hcfg, hfp, hids]
        · exfalso
          unfold generateRoomStack at herr
          simp [hcfg, hfp, hids] at herr
    · have hc : cfg = false := by revert hcfg; cases cfg <;> simp
      simp [hc]
  · intro hc
    subst hc
    rfl
  · intro hfp hc
    subst hc
    unfold generateRoomStack
    rw [hfp]
    rfl
  · intro hfp hc
    subst hc
    unfold generateRoomStack
    rw [hfp]
    rfl

/-- Witness for C10 at concrete inputs: the throwing provider (with the
key configured) and the unconfigured build both leave room 1 of
`feedState` — whose stack had three rows — with an empty stack equal to
the bare DELETE of the original state. -/
theorem C10_delete_first_empty_on_failure_witness :
    roomStackRows 1 (generateRoomStack 1 true throwProvider feedState).2 = [] ∧
    generateRoomStack 1 false throwProvider feedState =
      (.error .notConfigured, deleteRoomStack 1 feedState) ∧
    generateRoomStack 1 true throwProvider feedState =
      (.error .fetchFailed, deleteRoomStack 1 feedState) :=
  ⟨(C10_delete_first_empty_on_failure 1 true throwProvider feedState).1 .fetchFailed rfl,
   (C10_delete_first_empty_on_failure 1 false throwProvider feedState).2.1 rfl,
   (C10_delete_first_empty_on_failure 1 true throwProvider feedState).2.2.1 rfl rfl⟩
